import Mathlib

/-!
Verification of the two analysis scripts of this repository
(`Task 2/Task2.py`, an unemployment-series aggregator, and
`Task 3/Task3.py`, a car-price model trainer) against their
natural-language specification.

Strings are modelled as lists of characters, table cells as an inductive
`Cell` type (finite numeric values as rationals, missing values, text,
parsed timestamps), and a data frame as an ordered list of named columns.
Pandas library calls are modelled by executable Lean functions whose
behaviour on the inputs relevant to the specification matches the library:
`pd.to_numeric(errors="coerce")` is a total decimal parser mapping
unparsable text (including "nan") to the missing marker, `str.replace`
removes every occurrence, `str.strip` trims surrounding whitespace, and
`pd.to_datetime` is passed in as an explicit parser argument where the
scripts only depend on which cells parse.
-/

/-- A Python string, modelled as its list of characters. -/
abbrev Str := List Char

/-- A cell of a pandas data frame: a finite numeric value, the missing
marker (NaN/None/NaT), a text value, or a parsed timestamp (of which the
scripts only ever use the year and month fields). -/
inductive Cell where
  | num : ℚ → Cell
  | na : Cell
  | str : Str → Cell
  | date : ℤ → ℕ → Cell
deriving DecidableEq, Repr

/-- Is this cell the missing marker? -/
def Cell.isNa : Cell → Bool
  | .na => true
  | _ => false

/-- Is this cell a text value? -/
def Cell.isStr : Cell → Bool
  | .str _ => true
  | _ => false

instance {ε α : Type} [DecidableEq ε] [DecidableEq α] : DecidableEq (Except ε α) := fun a b =>
  match a, b with
  | .error x, .error y =>
      if h : x = y then isTrue (by rw [h]) else isFalse (by intro hh; cases hh; exact h rfl)
  | .ok x, .ok y =>
      if h : x = y then isTrue (by rw [h]) else isFalse (by intro hh; cases hh; exact h rfl)
  | .error _, .ok _ => isFalse (by intro hh; cases hh)
  | .ok _, .error _ => isFalse (by intro hh; cases hh)

/-- A data frame: an ordered list of named columns.  (Pandas invariant:
all columns have the same length and names are unique; the theorems that
need these facts take them as hypotheses.) -/
abbrev Df := List (Str × List Cell)

/-- The ordered list of column names of a frame. -/
def colNames (df : Df) : List Str := df.map Prod.fst

/-- `len(df)`: the number of rows, read off the first column. -/
def nRows (df : Df) : ℕ := ((df.head?).map (fun c => c.2.length)).getD 0

/-- `df[n]`: the values of the column named `n` (first match; `[]` if absent). -/
def getCol (df : Df) (n : Str) : List Cell :=
  match df.find? (fun c => decide (c.1 = n)) with
  | some c => c.2
  | none => []

/-- Python's `needle in haystack` substring test. -/
def containsSub (pat : Str) : Str → Bool
  | [] => pat.isEmpty
  | c :: rest => pat.isPrefixOf (c :: rest) || containsSub pat rest

/-- Python's `str.lower()` (ASCII). -/
def lowerStr (s : Str) : Str := s.map Char.toLower

/-- Python's `str.replace(old, "")` for a one-character `old`: removes
every occurrence. -/
def pyRemoveAll (ch : Char) (l : Str) : Str := l.filter (fun c => decide (c ≠ ch))

/-- Python's `str.strip()`: removes leading and trailing whitespace. -/
def pyStrip (l : Str) : Str :=
  ((l.dropWhile Char.isWhitespace).reverse.dropWhile Char.isWhitespace).reverse

/-! ### Decimal parsing and printing

`pd.to_numeric(errors="coerce")` parses each string as a Python float and
maps failures to NaN.  It is modelled as a total parser of finite signed
decimal literals into `ℚ`; strings outside that grammar (including "nan",
which already denotes the missing value) become the missing marker.
`astype(str)` on a numeric cell prints the value back as a decimal
literal. -/

/-- Numeric value of a digit character. -/
def digitVal (c : Char) : ℕ := c.toNat - '0'.toNat

/-- Value of a digit string, most significant digit first. -/
def charsVal (l : Str) : ℕ := l.foldl (fun a c => 10 * a + digitVal c) 0

/-- Parse an unsigned decimal literal `digits [ "." digits ]` (with at
least one digit), returning the mantissa and the number of fraction
digits. -/
def parseUnsigned (l : Str) : Option (ℕ × ℕ) :=
  let intPart := l.takeWhile Char.isDigit
  let rest := l.dropWhile Char.isDigit
  match rest with
  | [] => if intPart.isEmpty then none else some (charsVal intPart, 0)
  | '.' :: frac =>
      if frac.all Char.isDigit && !(intPart.isEmpty && frac.isEmpty) then
        some (charsVal (intPart ++ frac), frac.length)
      else none
  | _ => none

/-- Parse an optionally signed decimal literal as a rational
(`±mantissa / 10 ^ fractionDigits`, built with `mkRat` so that the value
is computable by the kernel). -/
def parseDecimal (l : Str) : Option ℚ :=
  if l.head? = some '-' then
    (parseUnsigned l.tail).map (fun p => mkRat (-(p.1 : ℤ)) (10 ^ p.2))
  else if l.head? = some '+' then
    (parseUnsigned l.tail).map (fun p => mkRat (p.1 : ℤ) (10 ^ p.2))
  else
    (parseUnsigned l).map (fun p => mkRat (p.1 : ℤ) (10 ^ p.2))

/-- Little-endian digit characters of `n`, with explicit fuel (structural
recursion, so the kernel can evaluate it). -/
def digitsRev : ℕ → ℕ → Str
  | 0, _ => []
  | _ + 1, 0 => []
  | fuel + 1, n + 1 => Nat.digitChar ((n + 1) % 10) :: digitsRev fuel ((n + 1) / 10)

/-- The digit string of a natural number (most significant first;
`"0"` for zero). -/
def natToChars (n : ℕ) : Str :=
  if n = 0 then ['0'] else (digitsRev n n).reverse

/-- Left-pad a digit string with zeros to length `k`. -/
def padZeros (k : ℕ) (l : Str) : Str := List.replicate (k - l.length) '0' ++ l

/-- A decimal exponent for the denominator `d`: the first `k ≤ d` with
`d ∣ 10 ^ k`, if any.  (Whenever `d` divides some power of 10, such a
`k ≤ d` exists.) -/
def decExp (d : ℕ) : Option ℕ := (List.range (d + 1)).find? (fun k => decide (d ∣ 10 ^ k))

/-- Print a rational as a decimal literal (the model of Python's
`str(float)`).  Rationals whose denominator divides no power of 10 do not
arise from floats; they print as an unparsable placeholder. -/
def ratToStr (q : ℚ) : Str :=
  match decExp q.den with
  | none => '/' :: natToChars q.den
  | some k =>
      let n := q.num.natAbs * (10 ^ k / q.den)
      let sign : Str := if q.num < 0 then ['-'] else []
      if k = 0 then sign ++ natToChars n
      else sign ++ natToChars (n / 10 ^ k) ++ '.' :: padZeros k (natToChars (n % 10 ^ k))

/-- `astype(str)` on a single cell. -/
def cellToString : Cell → Str
  | .num q => ratToStr q
  | .na => "nan".toList
  | .str s => s
  | .date _ _ => "<timestamp>".toList

/-- `pd.to_numeric(errors="coerce")` on a single (stringified) cell:
parse as a decimal, failures (and "nan") become the missing marker. -/
def toNumericCoerce (l : Str) : Cell :=
  match parseDecimal l with
  | some q => .num q
  | none => .na

/-- One cell of `clean_rate_series`: stringify, remove every "%", remove
every ",", strip whitespace, convert to numeric coercing failures. -/
def cleanCell (c : Cell) : Cell :=
  toNumericCoerce (pyStrip (pyRemoveAll ',' (pyRemoveAll '%' (cellToString c))))

/-- `clean_rate_series` (Task2.py, lines 27–30): stringify each cell,
remove every "%" and ",", strip whitespace, and convert to numeric with
failures coerced to missing. -/
def clean_rate_series (s : List Cell) : List Cell := s.map cleanCell

/-! ### Pipeline A: column detection (Task2.py, lines 32–74)

`pd.to_datetime(.., dayfirst=True, errors="coerce")` is modelled by an
explicit parser argument `p : DateParser` returning the (year, month) of
cells that parse as dates; the detectors only depend on which cells
parse.  The `try/except` around it is dead (with `errors="coerce"` the
call never raises), as is the failure branch of the rate fallback
(`pd.to_numeric(.., errors="ignore")` returns its input unchanged on
failure instead of raising). -/

/-- The model of `pd.to_datetime(.., dayfirst=True, errors="coerce")` on
a single cell: the (year, month) of the parsed date, or `none`. -/
abbrev DateParser := Cell → Option (ℤ × ℕ)

/-- `pd.to_datetime(col, ..).notna().sum()`: how many cells parse. -/
def countParsed (p : DateParser) (vs : List Cell) : ℕ :=
  vs.countP (fun v => (p v).isSome)

/-- Is `n` one of the frame's column names? -/
def hasCol (df : Df) (n : Str) : Bool := decide (n ∈ colNames df)

/-- `pd.api.types.is_numeric_dtype`: a column holds a numeric dtype when
every cell is a number or missing (an all-missing column reads as
float64). -/
def isNumericCol (vs : List Cell) : Bool :=
  vs.all (fun v => match v with
    | .num _ => true
    | .na => true
    | _ => false)

/-- The fixed candidate-name list of `detect_date_column`. -/
def dateCandidates : List Str :=
  ["Date".toList, "date".toList, "DATE".toList, "Period".toList, "Month".toList]

/-- First loop of `detect_date_column` (lines 36–43): first candidate
name that is a column and whose parse count exceeds a quarter of the row
count. -/
def scanDateCandidates (p : DateParser) (df : Df) : List Str → Option Str
  | [] => none
  | c :: rest =>
      if hasCol df c && decide (4 * countParsed p (getCol df c) > nRows df) then some c
      else scanDateCandidates p df rest

/-- Fallback loop of `detect_date_column` (lines 46–50): first
non-numeric column whose parse count exceeds half of the row count. -/
def scanDateFallback (p : DateParser) (df : Df) : List (Str × List Cell) → Option Str
  | [] => none
  | c :: rest =>
      if !isNumericCol c.2 && decide (2 * countParsed p c.2 > nRows df) then some c.1
      else scanDateFallback p df rest

/-- The automatic part of `detect_date_column` (candidate scan, then
fallback scan, then the `ValueError`). -/
def autoDetectDate (p : DateParser) (df : Df) : Except Str Str :=
  match scanDateCandidates p df dateCandidates with
  | some c => .ok c
  | none =>
      match scanDateFallback p df df with
      | some c => .ok c
      | none => .error "No usable date column found. Use --date-col DATE.".toList

/-- `detect_date_column` (Task2.py, lines 32–52).  `if provided and
provided in df.columns` requires the override to be a nonempty string
naming a column. -/
def detect_date_column (p : DateParser) (df : Df) (provided : Option Str) : Except Str Str :=
  match provided with
  | some pr => if pr ≠ [] && hasCol df pr then .ok pr else autoDetectDate p df
  | none => autoDetectDate p df

/-- The keyword list of `detect_rate_column`. -/
def rateKeywords : List Str :=
  ["unemployment".toList, "rate".toList, "estimated unemployment".toList]

/-- Keyword loop of `detect_rate_column` (lines 60–64): keywords in the
outer loop, columns in the inner loop. -/
def scanRateKeywords (df : Df) : List Str → Option Str
  | [] => none
  | key :: rest =>
      match df.find? (fun c => containsSub key (lowerStr c.1)) with
      | some c => some c.1
      | none => scanRateKeywords df rest

/-- The `try: pd.to_numeric(df[c], errors="ignore"); return c` fallback
test: `to_numeric(errors="ignore")` returns its input unchanged when
coercion fails and never raises, so every column passes. -/
def survivesCoercionIgnore (_vs : List Cell) : Bool := true

/-- The automatic part of `detect_rate_column` (keyword scan, then the
coercion fallback, then the `ValueError`). -/
def autoDetectRate (df : Df) : Except Str Str :=
  match scanRateKeywords df rateKeywords with
  | some c => .ok c
  | none =>
      match df.find? (fun c => survivesCoercionIgnore c.2) with
      | some c => .ok c.1
      | none => .error "Could not detect rate column. Use --rate-col.".toList

/-- `detect_rate_column` (Task2.py, lines 56–74). -/
def detect_rate_column (df : Df) (provided : Option Str) : Except Str Str :=
  match provided with
  | some pr => if pr ≠ [] && hasCol df pr then .ok pr else autoDetectRate df
  | none => autoDetectRate df

/-! ### Pipeline A: monthly aggregation (Task2.py, lines 98–103) -/

/-- The (Year, Month, rate) cell triples of the rows of the frame, as
`((year, month), rate)`. -/
def dfTriples (df : Df) (rc : Str) : List ((Cell × Cell) × Cell) :=
  ((getCol df "Year".toList).zip (getCol df "Month".toList)).zip (getCol df rc)

/-- `df.dropna(subset=["Year", "Month", rc])` keeps a row when all three
cells are present. -/
def rowOk (t : (Cell × Cell) × Cell) : Bool :=
  !t.1.1.isNa && !t.1.2.isNa && !t.2.isNa

/-- Numeric value of a cell (cleaned-rate cells are numbers). -/
def cellQ : Cell → ℚ
  | .num q => q
  | _ => 0

/-- Kernel-computable rational addition (provably ordinary addition,
see `ratAdd_eq_add`). -/
def ratAdd (a b : ℚ) : ℚ := mkRat (a.num * b.den + b.num * a.den) (a.den * b.den)

/-- Kernel-computable sum of rationals. -/
def ratSum (l : List ℚ) : ℚ := l.foldr ratAdd 0

/-- Kernel-computable division of a rational by a natural number
(provably ordinary division, see `ratDivNat_eq_div`). -/
def ratDivNat (q : ℚ) (n : ℕ) : ℚ := mkRat q.num (q.den * n)

/-- `monthly_timeseries` (Task2.py, lines 98–103): drop the rows missing
Year, Month or the cleaned rate, stamp each remaining row to its month,
and average the rate per month (`.resample("MS").mean()`); months with no
qualifying rows have no value. -/
def monthly_timeseries (df : Df) (rc : Str) : Cell × Cell → Option ℚ :=
  fun ym =>
    let kept := (dfTriples df rc).filter rowOk
    let group := (kept.filter (fun t => decide (t.1 = ym))).map (fun t => cellQ t.2)
    if group.isEmpty then none else some (ratDivNat (ratSum group) group.length)

/-! ### Pipeline A: frame preparation and main (Task2.py, lines 76–96 and 113–141) -/

/-- `df[n] = vs`: replace the column if the name exists, else append it. -/
def setCol (df : Df) (n : Str) (vs : List Cell) : Df :=
  if hasCol df n then df.map (fun c => if c.1 = n then (n, vs) else c)
  else df ++ [(n, vs)]

/-- Is the optional name a column of the frame?  (`None in df.columns`
is false.) -/
def optColPresent (df : Df) : Option Str → Bool
  | some s => hasCol df s
  | none => false

/-- Parse every cell of a column with the date parser
(`pd.to_datetime(df[dcol], dayfirst=True, errors="coerce")`); failures
become NaT. -/
def parseDateCol (p : DateParser) (vs : List Cell) : List Cell :=
  vs.map (fun v => match p v with
    | some ym => .date ym.1 ym.2
    | none => .na)

/-- `.dt.year` of a parsed date column (NaN on NaT). -/
def yearsOf (vs : List Cell) : List Cell :=
  vs.map (fun v => match v with
    | .date y _ => .num (mkRat y 1)
    | _ => .na)

/-- `.dt.month` of a parsed date column (NaN on NaT). -/
def monthsOf (vs : List Cell) : List Cell :=
  vs.map (fun v => match v with
    | .date _ m => .num (mkRat (m : ℤ) 1)
    | _ => .na)

/-- `prepare_dataframe` (Task2.py, lines 76–96), starting from the frame
`pd.read_csv` produced: trim the column names; if the given Year/Month
columns both exist, optionally clean the rate column and return; else
detect and parse the date column, derive Year/Month, detect the rate
column and append its cleaned copy. -/
def prepare_dataframe (p : DateParser) (df0 : Df)
    (dateCol yearCol monthCol rateCol : Option Str) : Except Str Df :=
  let df : Df := df0.map (fun c => (pyStrip c.1, c.2))
  if optColPresent df yearCol && optColPresent df monthCol then
    match rateCol with
    | some r =>
        if r ≠ [] && hasCol df r then
          .ok (setCol df (r ++ "_clean".toList) (clean_rate_series (getCol df r)))
        else .ok df
    | none => .ok df
  else
    match detect_date_column p df dateCol with
    | .error e => .error e
    | .ok dcol =>
        let df := setCol df dcol (parseDateCol p (getCol df dcol))
        let df := setCol df "Year".toList (yearsOf (getCol df dcol))
        let df := setCol df "Month".toList (monthsOf (getCol df dcol))
        match detect_rate_column df rateCol with
        | .error e => .error e
        | .ok rcol =>
            .ok (setCol df (rcol ++ "_clean".toList) (clean_rate_series (getCol df rcol)))

/-- Python's `str.endswith`. -/
def endsWithStr (suffix s : Str) : Bool := suffix.isSuffixOf s

/-- The `__main__` block of Task2.py (lines 113–141), from the loaded
input frame to the persisted outputs: the preprocessed frame
(`preprocessed_input.csv`), and the monthly series
(`monthly_timeseries.csv` and the plot, which both render
`monthly_timeseries(df, rate_clean)`).  `args.freq` is bound but never
read.  The first column ending in `_clean` is used as the cleaned rate
(an `IndexError` escapes if there is none). -/
def mainA (p : DateParser) (df0 : Df) (dateCol rateCol : Option Str) (freq : ℤ) :
    Except Str (Df × (Cell × Cell → Option ℚ)) :=
  match prepare_dataframe p df0 dateCol none none rateCol with
  | .error e => .error e
  | .ok df =>
      match (colNames df).filter (fun n => endsWithStr "_clean".toList n) with
      | [] => .error "IndexError: list index out of range".toList
      | rc :: _ => .ok (df, monthly_timeseries df rc)

/-! ### Pipeline B: target resolution (Task3.py, lines 18–40) -/

/-- `name.lower().replace(" ", "_")`: the normalization used by
`find_target_column`. -/
def pyNormalize (s : Str) : Str :=
  (lowerStr s).map (fun c => if c = ' ' then '_' else c)

/-- `COMMON_TARGET_ALIASES` (Task3.py, lines 18–21). -/
def COMMON_TARGET_ALIASES : List Str :=
  ["price".toList, "Price".toList, "selling_price".toList, "Selling_Price".toList,
   "selling price".toList, "Selling Price".toList, "target".toList, "y".toList, "label".toList]

/-- Lookup in the dict `{c.lower().replace(" ", "_"): c for c in df.columns}`:
on key collisions, later columns overwrite earlier ones, so the last
matching column wins. -/
def normLookup (cols : List Str) (key : Str) : Option Str :=
  (cols.filter (fun c => decide (pyNormalize c = key))).getLast?

/-- Alias loop of `find_target_column` (lines 35–39). -/
def aliasScan (cols : List Str) : List Str → Option Str
  | [] => none
  | a :: rest =>
      match normLookup cols (pyNormalize a) with
      | some c => some c
      | none => aliasScan cols rest

/-- `find_target_column` (Task3.py, lines 23–40): normalized match of the
requested name (skipped when no name, or the empty string, is given),
then an exact-name fallback, then the alias list, else `None`. -/
def find_target_column (df : Df) (requested : Option Str) : Option Str :=
  let cols := colNames df
  match requested with
  | some r =>
      if r ≠ [] then
        match normLookup cols (pyNormalize r) with
        | some c => some c
        | none =>
            if decide (r ∈ cols) then some r
            else aliasScan cols COMMON_TARGET_ALIASES
      else aliasScan cols COMMON_TARGET_ALIASES
  | none => aliasScan cols COMMON_TARGET_ALIASES

/-! ### Pipeline B: preprocessing and main (Task3.py, lines 42–60 and 62–102) -/

/-- The identifier aliases of `basic_preprocess` (line 53). -/
def identifierAliases : List Str := ["car_name".toList, "name".toList, "id".toList]

/-- A column has pandas dtype object/category when it holds text. -/
def isObjectCol (vs : List Cell) : Bool := vs.any (fun v => v.isStr)

/-- `df.dropna(subset=[target])`: keep the rows whose target cell is
present. -/
def dropnaTargetRows (df : Df) (t : Str) : Df :=
  let mask := (getCol df t).map (fun v => !v.isNa)
  df.map (fun c => (c.1, (mask.zip c.2).filterMap (fun bv => if bv.1 then some bv.2 else none)))

/-- The identifier-drop loop of `basic_preprocess` (lines 46–56): drop
every non-target text column whose lowercased name is an identifier
alias. -/
def dropIdentifierCols (df : Df) (t : Str) : Df :=
  df.filter (fun c => !(decide (c.1 ≠ t) && isObjectCol c.2 && decide (lowerStr c.1 ∈ identifierAliases)))

/-- Ascending order on strings (used for the category order of
`pd.get_dummies`). -/
def strLe (a b : Str) : Bool := !decide (b < a)

/-- Insert a string into an ascending list (insertion sort step). -/
def insertSorted (a : Str) : List Str → List Str
  | [] => [a]
  | b :: rest => if strLe a b then a :: b :: rest else b :: insertSorted a rest

/-- Sort strings ascending (insertion sort, so the kernel can evaluate it). -/
def sortStrs (l : List Str) : List Str := l.foldr insertSorted []

/-- The sorted distinct text values of a column: the categories
`pd.get_dummies` encodes (missing values form no category). -/
def catsOf (vs : List Cell) : List Str :=
  sortStrs ((vs.filterMap (fun v => match v with
    | .str s => some s
    | _ => none)).dedup)

/-- Name of the indicator column for category `cat` of column `n`
(pandas naming `f"{col}_{val}"`). -/
def dummyName (n cat : Str) : Str := n ++ '_' :: cat

/-- The 0/1 indicator column for one category (missing cells get 0). -/
def dummyCol (vs : List Cell) (cat : Str) : List Cell :=
  vs.map (fun v => if v = .str cat then .num (mkRat 1 1) else .num (mkRat 0 1))

/-- `pd.get_dummies(df, drop_first=True)`: non-object columns keep their
original order, then each object column expands into one indicator per
category except the first (the reference category), in category order. -/
def get_dummies (df : Df) : Df :=
  df.filter (fun c => !isObjectCol c.2) ++
    (df.filter (fun c => isObjectCol c.2)).flatMap
      (fun c => ((catsOf c.2).drop 1).map (fun cat => (dummyName c.1 cat, dummyCol c.2 cat)))

/-- `basic_preprocess` (Task3.py, lines 42–60): drop rows with a missing
target, drop identifier-named text columns, and one-hot encode the
remaining text columns with the reference category omitted. -/
def basic_preprocess (df : Df) (t : Str) : Df :=
  get_dummies (dropIdentifierCols (dropnaTargetRows df t) t)

/-- The observable outcome of a run of Task3.py's `main`: one of the three
error exits, or a successful run carrying the preprocessed frame and the
final target column. -/
inductive OutcomeB where
  | exit1 : OutcomeB
  | exit2 : List Str → OutcomeB
  | exit3 : OutcomeB
  | success : Df → Str → OutcomeB
deriving DecidableEq, Repr

/-- The output files a run writes: `main` only reaches the two writes
(model artifact and metrics report) on the success path. -/
def outputFiles : OutcomeB → List Str
  | .success _ _ => ["rf_model.joblib".toList, "metrics.txt".toList]
  | _ => []

/-- The prefix-based re-match of `main` (line 93): columns whose
lowercased name starts with the normalized target name. -/
def prefixRematch (cols : List Str) (t : Str) : List Str :=
  cols.filter (fun c => (pyNormalize t).isPrefixOf (lowerStr c))

/-- `main` of Task3.py (lines 62–102), from the file-existence test to
the outcome: exit 1 when the input file is missing, exit 2 (listing the
available columns) when no target resolves, exit 3 when the target is
lost by preprocessing and the prefix re-match finds nothing; otherwise
success (training and evaluation are library calls that always follow). -/
def mainB (inputExists : Bool) (df : Df) (requestedTarget : Option Str) : OutcomeB :=
  if !inputExists then .exit1
  else
    match find_target_column df requestedTarget with
    | none => .exit2 (colNames df)
    | some t =>
        let dfp := basic_preprocess df t
        if decide (t ∈ colNames dfp) then .success dfp t
        else
          match prefixRematch (colNames dfp) t with
          | c :: _ => .success dfp c
          | [] => .exit3

/-! ### Spec-side definitions

Each `spec…` definition below formalizes the specification's (and the
claims') wording of a policy, independently of the loop structure of the
source; the policy theorems compare them with the definitions translated
from the code. -/

/-- The spec's wording of the date policy, automatic part: "(b) scan a
fixed candidate-name list … accepting the first whose successful-parse
ratio exceeds ¼ of row count; (c) if none match, scan all non-numeric
columns and accept the first whose successful-parse ratio exceeds ½";
otherwise the "no usable date column" condition. -/
def specAutoDate (p : DateParser) (df : Df) : Except Str Str :=
  match dateCandidates.find? (fun c => hasCol df c && decide (4 * countParsed p (getCol df c) > nRows df)) with
  | some c => .ok c
  | none =>
      match df.find? (fun c => !isNumericCol c.2 && decide (2 * countParsed p c.2 > nRows df)) with
      | some c => .ok c.1
      | none => .error "No usable date column found. Use --date-col DATE.".toList

/-- The spec's wording of the date policy: "(a) accept the user-specified
column verbatim if present", else the automatic policy. -/
def specDateDetect (p : DateParser) (df : Df) (provided : Option Str) : Except Str Str :=
  match provided with
  | some pr => if hasCol df pr then .ok pr else specAutoDate p df
  | none => specAutoDate p df

/-- The claim's wording of the rate policy, automatic part: "the first
column whose lowercased name contains one of the keywords", else the
first column surviving the coercion attempt, else failure.  Note the
scan here is column-major: the first qualifying COLUMN wins. -/
def specAutoRateClaim (df : Df) : Except Str Str :=
  match df.find? (fun c => rateKeywords.any (fun k => containsSub k (lowerStr c.1))) with
  | some c => .ok c.1
  | none =>
      match df.find? (fun c => survivesCoercionIgnore c.2) with
      | some c => .ok c.1
      | none => .error "Could not detect rate column. Use --rate-col.".toList

/-- The claim's wording of the full rate policy (override, then the
column-major keyword scan, then the coercion fallback). -/
def specRateDetectClaim (df : Df) (provided : Option Str) : Except Str Str :=
  match provided with
  | some pr => if hasCol df pr then .ok pr else specAutoRateClaim df
  | none => specAutoRateClaim df

/-- The amended wording of the rate policy, automatic part: the scan is
keyword-major — keywords in order, and for each keyword the first column
whose lowercased name contains it. -/
def specAutoRateAmended (df : Df) : Except Str Str :=
  match rateKeywords.findSome? (fun k => (df.find? (fun c => containsSub k (lowerStr c.1))).map Prod.fst) with
  | some c => .ok c
  | none =>
      match df.find? (fun c => survivesCoercionIgnore c.2) with
      | some c => .ok c.1
      | none => .error "Could not detect rate column. Use --rate-col.".toList

/-- The amended wording of the full rate policy. -/
def specRateDetectAmended (df : Df) (provided : Option Str) : Except Str Str :=
  match provided with
  | some pr => if hasCol df pr then .ok pr else specAutoRateAmended df
  | none => specAutoRateAmended df

/-- The claim's wording of target resolution: normalized match of the
requested name against the columns, else the alias list, else absent. -/
def specTargetResolve (df : Df) (requested : Option Str) : Option Str :=
  let cols := colNames df
  let aliasHit := COMMON_TARGET_ALIASES.findSome? (fun a => normLookup cols (pyNormalize a))
  match requested with
  | some r =>
      match normLookup cols (pyNormalize r) with
      | some c => some c
      | none => aliasHit
  | none => aliasHit

/-- The claim's wording of one cleaned cell: strip the literal "%" and
"," characters and surrounding whitespace from the stringified cell, then
parse; cells that fail to parse become the missing marker. -/
def specCleanCell (c : Cell) : Cell :=
  match parseDecimal (pyStrip (pyRemoveAll '%' (pyRemoveAll ',' (cellToString c)))) with
  | some q => .num q
  | none => .na

/-- The claim's wording of one entry of the monthly series: the
arithmetic mean of the cleaned rates of the qualifying rows (Year, Month
and rate all present) of that month, and no entry for a month with no
qualifying row. -/
def specMonthMean (df : Df) (rc : Str) (ym : Cell × Cell) : Option ℚ :=
  let rates := (dfTriples df rc).filterMap
    (fun t => if rowOk t && decide (t.1 = ym) then some (cellQ t.2) else none)
  if rates.isEmpty then none else some (ratDivNat (ratSum rates) rates.length)

/-- The claim's wording of the row-dropping step of preprocessing: keep
exactly the rows whose target value is present. -/
def specDropMissingTargetRows (df : Df) (t : Str) : Df :=
  df.map (fun c => (c.1, ((getCol df t).zip c.2).filterMap
    (fun p => if p.1.isNa then none else some p.2)))

/-- The claim's wording of the identifier-drop step: drop every text
column whose lowercased name is "car_name", "name" or "id" (the target
itself is never dropped). -/
def specDropIdentifier (df : Df) (t : Str) : Df :=
  df.filter (fun c => !(isObjectCol c.2 && decide (lowerStr c.1 ∈ identifierAliases) && decide (c.1 ≠ t)))

/-- The claim's wording of preprocessing: drop rows with missing target,
drop identifier text columns, one-hot encode the remaining text columns
omitting one reference category each. -/
def specPreprocess (df : Df) (t : Str) : Df :=
  get_dummies (specDropIdentifier (specDropMissingTargetRows df t) t)

/-- A concrete day-first date parser used to instantiate the detection
theorems: it accepts text cells of the ISO form `YYYY-MM-DD`. -/
def isoDayFirstParse : DateParser
  | .str [y1, y2, y3, y4, '-', m1, m2, '-', d1, d2] =>
      if [y1, y2, y3, y4, m1, m2, d1, d2].all Char.isDigit then
        some ((charsVal [y1, y2, y3, y4] : ℤ), charsVal [m1, m2])
      else none
  | _ => none

/-- A small frame with an ISO "Date" column, a text column, and a rate
column, used to instantiate the detection theorems. -/
def sampleDfA : Df :=
  [("Date".toList, [.str "2020-01-01".toList, .str "2020-02-01".toList, .str "2020-03-01".toList]),
   ("Region".toList, [.str "North".toList, .str "South".toList, .str "East".toList]),
   ("Estimated Unemployment Rate (%)".toList, [.str "5.5%".toList, .str "6.1%".toList, .str "7.0%".toList])]

/-- The two-column frame on which the claimed (column-major) rate policy
and the code disagree: the first column's name contains the keyword
"rate", but the keyword "unemployment" is scanned first and matches the
second column. -/
def rateCounterDf : Df :=
  [("Interest Rate".toList, [.num (mkRat 1 1), .num (mkRat 2 1)]),
   ("Unemployment".toList, [.str "x".toList, .str "y".toList])]

/-- The car-listing frame of the end-to-end scenario: identifier text
column, numeric year, numeric target, and a two-category fuel column. -/
def sampleDfB : Df :=
  [("Car_Name".toList, [.str "ritz".toList, .str "sx4".toList, .str "ciaz".toList]),
   ("Year".toList, [.num (mkRat 2014 1), .num (mkRat 2013 1), .num (mkRat 2017 1)]),
   ("Selling_Price".toList, [.num (mkRat 335 100), .num (mkRat 475 100), .num (mkRat 725 100)]),
   ("Fuel_Type".toList, [.str "Petrol".toList, .str "Diesel".toList, .str "Petrol".toList])]

/-- Drop row `i` from a frame (used to state what a single row
contributes to the monthly series). -/
def removeRow (df : Df) (i : ℕ) : Df := df.map (fun c => (c.1, c.2.eraseIdx i))

/-- A small prepared unemployment frame: three rows of January/February
2020 plus one row with a missing Year. -/
def sampleDfC : Df :=
  [("Year".toList, [.num (mkRat 2020 1), .num (mkRat 2020 1), .num (mkRat 2020 1), .na]),
   ("Month".toList, [.num (mkRat 1 1), .num (mkRat 1 1), .num (mkRat 2 1), .num (mkRat 2 1)]),
   ("r_clean".toList, [.num (mkRat 5 1), .num (mkRat 6 1), .num (mkRat 8 1), .num (mkRat 9 1)])]

/-- A character printed by `ratToStr` is a digit, a minus sign or a
decimal point. -/
def RatChar (c : Char) : Prop := c.isDigit = true ∨ c = '-' ∨ c = '.'

/-! ### Sanity examples (kernel-evaluated) -/

example : clean_rate_series [.str "5.5%".toList, .str " 1,234.25 ".toList, .str "abc".toList, .na, .num (mkRat 3 1)]
    = [.num (mkRat 11 2), .num (mkRat 123425 100), .na, .na, .num (mkRat 3 1)] := by decide

example : parseDecimal "-12.50".toList = some (mkRat (-25) 2) := by decide
example : ratToStr (mkRat 11 2) = "5.5".toList := by decide
example : ratToStr (mkRat (-3) 1) = "-3".toList := by decide

example :
    monthly_timeseries
      [("Year".toList, [.num (mkRat 2020 1), .num (mkRat 2020 1), .num (mkRat 2020 1), .na]),
       ("Month".toList, [.num (mkRat 1 1), .num (mkRat 1 1), .num (mkRat 2 1), .num (mkRat 2 1)]),
       ("r_clean".toList, [.num (mkRat 5 1), .num (mkRat 6 1), .na, .num (mkRat 9 1)])]
      "r_clean".toList
      (.num (mkRat 2020 1), .num (mkRat 1 1)) = some (mkRat 11 2) := by decide

example :
    detect_rate_column
      [("Region".toList, [.str "A".toList]), ("Estimated Unemployment Rate (%)".toList, [.str "5.5%".toList])]
      none = .ok "Estimated Unemployment Rate (%)".toList := by decide

example :
    find_target_column
      [("Car_Name".toList, []), ("Year".toList, []), ("Selling_Price".toList, []), ("Fuel_Type".toList, [])]
      (some "Selling Price".toList) = some "Selling_Price".toList := by decide

example :
    basic_preprocess
      [("Car_Name".toList, [.str "ritz".toList, .str "sx4".toList]),
       ("Year".toList, [.num (mkRat 2014 1), .num (mkRat 2013 1)]),
       ("Selling_Price".toList, [.num (mkRat 335 100), .num (mkRat 475 100)]),
       ("Fuel_Type".toList, [.str "Petrol".toList, .str "Diesel".toList])]
      "Selling_Price".toList
    = [("Year".toList, [.num (mkRat 2014 1), .num (mkRat 2013 1)]),
       ("Selling_Price".toList, [.num (mkRat 335 100), .num (mkRat 475 100)]),
       ("Fuel_Type_Petrol".toList, [.num (mkRat 1 1), .num (mkRat 0 1)])] := by decide

example :
    mainB true [("target".toList, [.str "x".toList, .str "x".toList])] none = .exit3 := by decide

example :
    mainB true [("mileage".toList, [.num (mkRat 1 1)])] none = .exit2 ["mileage".toList] := by decide

/-! ### Helper lemmas relating the source loops to the spec combinators -/

theorem scanDateCandidates_eq_find (p : DateParser) (df : Df) (l : List Str) :
    scanDateCandidates p df l
      = l.find? (fun c => hasCol df c && decide (4 * countParsed p (getCol df c) > nRows df)) := by
  induction l with
  | nil => rfl
  | cons c rest ih =>
      by_cases h : (hasCol df c && decide (4 * countParsed p (getCol df c) > nRows df)) = true
      · simp [scanDateCandidates, h, List.find?]
      · simp only [Bool.not_eq_true] at h
        simp [scanDateCandidates, h, List.find?, ih]

theorem scanDateFallback_eq_find (p : DateParser) (df : Df) (l : List (Str × List Cell)) :
    scanDateFallback p df l
      = (l.find? (fun c => !isNumericCol c.2 && decide (2 * countParsed p c.2 > nRows df))).map Prod.fst := by
  induction l with
  | nil => rfl
  | cons c rest ih =>
      by_cases h : (!isNumericCol c.2 && decide (2 * countParsed p c.2 > nRows df)) = true
      · simp [scanDateFallback, h, List.find?]
      · simp only [Bool.not_eq_true] at h
        simp [scanDateFallback, h, List.find?, ih]

theorem scanRateKeywords_eq_findSome (df : Df) (l : List Str) :
    scanRateKeywords df l
      = l.findSome? (fun k => (df.find? (fun c => containsSub k (lowerStr c.1))).map Prod.fst) := by
  induction l with
  | nil => rfl
  | cons key rest ih =>
      simp only [scanRateKeywords, List.findSome?]
      cases h : df.find? (fun c => containsSub key (lowerStr c.1)) with
      | none => simpa [h] using ih
      | some c => simp [h]

theorem aliasScan_eq_findSome (cols : List Str) (l : List Str) :
    aliasScan cols l = l.findSome? (fun a => normLookup cols (pyNormalize a)) := by
  induction l with
  | nil => rfl
  | cons a rest ih =>
      simp only [aliasScan, List.findSome?]
      cases h : normLookup cols (pyNormalize a) with
      | none => simpa [h] using ih
      | some c => simp [h]

theorem normLookup_none_not_mem {cols : List Str} {r : Str}
    (h : normLookup cols (pyNormalize r) = none) : r ∉ cols := by
  intro hmem
  have hfil : cols.filter (fun c => decide (pyNormalize c = pyNormalize r)) = [] := by
    simpa [normLookup, List.getLast?_eq_none_iff] using h
  have := List.filter_eq_nil_iff.mp hfil r hmem
  simp at this

theorem autoDetectDate_eq_spec (p : DateParser) (df : Df) :
    autoDetectDate p df = specAutoDate p df := by
  unfold autoDetectDate specAutoDate
  rw [scanDateCandidates_eq_find, scanDateFallback_eq_find]
  cases dateCandidates.find?
      (fun c => hasCol df c && decide (4 * countParsed p (getCol df c) > nRows df)) with
  | some c => rfl
  | none =>
      cases df.find? (fun c => !isNumericCol c.2 && decide (2 * countParsed p c.2 > nRows df)) with
      | some c => rfl
      | none => rfl

theorem autoDetectRate_eq_amended (df : Df) :
    autoDetectRate df = specAutoRateAmended df := by
  unfold autoDetectRate specAutoRateAmended
  rw [scanRateKeywords_eq_findSome]

/-- Claim C3: For every table, date-column detection follows the ordered
policy: accept the user-specified column if provided (a nonempty name)
and present; else the first fixed-list candidate column whose day-first
parse count exceeds ¼ of the row count; else the first non-numeric column
whose parse count exceeds ½ of the row count; else the "no usable date
column" failure.  In particular a column of ISO date strings named "Date"
with more than 25% parseable entries is selected without scanning the
fallback columns. -/
theorem date_detection_policy :
    (∀ (p : DateParser) (df : Df) (provided : Option Str),
        (∀ s, provided = some s → s ≠ []) →
        detect_date_column p df provided = specDateDetect p df provided)
    ∧ detect_date_column isoDayFirstParse sampleDfA none = .ok "Date".toList := by
  constructor
  · intro p df provided hp
    match provided with
    | none => exact autoDetectDate_eq_spec p df
    | some pr =>
        have hpr : decide (pr ≠ []) = true := by simpa using hp pr rfl
        cases hc : hasCol df pr with
        | true => simp [detect_date_column, specDateDetect, hpr, hc]
        | false => simp [detect_date_column, specDateDetect, hpr, hc, autoDetectDate_eq_spec]
  · decide

/-- Claim C3 witness: The policy theorem applied at a concrete parser,
frame and override. -/
theorem date_detection_policy_witness :
    detect_date_column isoDayFirstParse sampleDfA (some "Period".toList)
      = specDateDetect isoDayFirstParse sampleDfA (some "Period".toList) :=
  date_detection_policy.1 isoDayFirstParse sampleDfA (some "Period".toList)
    (by intro s hs; cases hs; decide)

/-- Claim C2 counterexample: The claim reads the keyword scan column-major
("the first column whose lowercased name contains one of the keywords");
the code scans keyword-major (keywords in the outer loop).  On
`rateCounterDf` the claimed policy picks "Interest Rate" while the code
returns "Unemployment". -/
theorem rate_detection_policy_counterexample :
    specRateDetectClaim rateCounterDf none = .ok "Interest Rate".toList
    ∧ detect_rate_column rateCounterDf none = .ok "Unemployment".toList
    ∧ detect_rate_column rateCounterDf none ≠ specRateDetectClaim rateCounterDf none := by
  refine ⟨by decide, by decide, by decide⟩

/-- Claim C2, amended: For every table, rate-column detection returns the
override column if provided (a nonempty name) and present; otherwise it
scans keyword-major — keywords in order and, for each keyword, the
columns in order — returning the first column whose lowercased name
contains the keyword; otherwise it returns the first column that survives
the best-effort numeric coercion attempt (which never fails); and it
fails only if no column satisfies any policy.  In particular a column
named "Unemployment Rate" is selected over a numeric-but-unrelated
column when both exist. -/
theorem rate_detection_policy_amended :
    (∀ (df : Df) (provided : Option Str),
        (∀ s, provided = some s → s ≠ []) →
        detect_rate_column df provided = specRateDetectAmended df provided)
    ∧ detect_rate_column
        [("Mileage".toList, [.num (mkRat 12 1), .num (mkRat 14 1)]),
         ("Unemployment Rate".toList, [.str "5.5".toList, .str "6.0".toList])] none
      = .ok "Unemployment Rate".toList := by
  constructor
  · intro df provided hp
    match provided with
    | none => exact autoDetectRate_eq_amended df
    | some pr =>
        have hpr : decide (pr ≠ []) = true := by simpa using hp pr rfl
        cases hc : hasCol df pr with
        | true => simp [detect_rate_column, specRateDetectAmended, hpr, hc]
        | false => simp [detect_rate_column, specRateDetectAmended, hpr, hc, autoDetectRate_eq_amended]
  · decide

/-- Claim C2, amended, witness: The amended policy theorem applied at a
concrete frame and override. -/
theorem rate_detection_policy_amended_witness :
    detect_rate_column sampleDfA (some "Wrong".toList)
      = specRateDetectAmended sampleDfA (some "Wrong".toList) :=
  rate_detection_policy_amended.1 sampleDfA (some "Wrong".toList)
    (by intro s hs; cases hs; decide)

/-- Claim C6: For every table, target-column resolution resolves a
requested (nonempty) name by case-insensitive, space/underscore-normalized
match against the table's columns, falls back to the fixed alias list,
and reports absence otherwise; in particular requesting "Selling Price"
against a table with a column "Selling_Price" resolves to that column. -/
theorem target_resolution_policy :
    (∀ (df : Df) (requested : Option Str),
        (∀ s, requested = some s → s ≠ []) →
        find_target_column df requested = specTargetResolve df requested)
    ∧ find_target_column sampleDfB (some "Selling Price".toList) = some "Selling_Price".toList := by
  constructor
  · intro df requested hp
    match requested with
    | none =>
        simp only [find_target_column, specTargetResolve]
        exact aliasScan_eq_findSome (colNames df) COMMON_TARGET_ALIASES
    | some r =>
        have hr : r ≠ [] := hp r rfl
        simp only [find_target_column, specTargetResolve, hr, if_pos, ne_eq,
          not_false_eq_true]
        cases hnl : normLookup (colNames df) (pyNormalize r) with
        | some c => simp
        | none =>
            have hnm : r ∉ colNames df := normLookup_none_not_mem hnl
            simp [hnm, aliasScan_eq_findSome]
  · decide

/-- Claim C6 witness: The resolution theorem applied at the scenario frame
and the requested name "Selling Price". -/
theorem target_resolution_policy_witness :
    find_target_column sampleDfB (some "Selling Price".toList)
      = specTargetResolve sampleDfB (some "Selling Price".toList) :=
  target_resolution_policy.1 sampleDfB (some "Selling Price".toList)
    (by intro s hs; cases hs; decide)

/-- Claim C10: An override naming a column that is not in the table is
silently ignored by both detectors: detection proceeds exactly as if no
override had been given, and the invalid override never by itself causes
a failure. -/
theorem invalid_override_ignored :
    ∀ (p : DateParser) (df : Df) (pr : Str), pr ∉ colNames df →
      detect_date_column p df (some pr) = detect_date_column p df none
      ∧ detect_rate_column df (some pr) = detect_rate_column df none := by
  intro p df pr h
  have hc : hasCol df pr = false := by simpa [hasCol] using h
  constructor
  · simp [detect_date_column, hc]
  · simp [detect_rate_column, hc]

/-- Claim C10 witness: The override-ignoring theorem applied at a concrete
frame and a name absent from it. -/
theorem invalid_override_ignored_witness :
    detect_date_column isoDayFirstParse sampleDfA (some "Timestamp".toList)
      = detect_date_column isoDayFirstParse sampleDfA none
    ∧ detect_rate_column sampleDfA (some "Timestamp".toList)
      = detect_rate_column sampleDfA none :=
  invalid_override_ignored isoDayFirstParse sampleDfA "Timestamp".toList (by decide)

/-- Claim C9: The `--freq` flag of pipeline A is inert: two runs that
differ only in the frequency value produce identical preprocessed frames
and monthly series (the flag is parsed but never read). -/
theorem freq_flag_inert :
    ∀ (p : DateParser) (df0 : Df) (dateCol rateCol : Option Str) (f1 f2 : ℤ),
      mainA p df0 dateCol rateCol f1 = mainA p df0 dateCol rateCol f2 :=
  fun _ _ _ _ _ _ => rfl

/-- Claim C7: Pipeline B's outcomes: with a missing input file the run ends
in exit code 1 and writes no output files; with the input present but no
resolvable target it ends in exit code 2 listing the available columns;
and with a resolved target that is lost by preprocessing and not
recovered by the prefix re-match it ends in exit code 3. -/
theorem pipelineB_exit_codes :
    ∀ (df : Df) (rt : Option Str),
      (mainB false df rt = .exit1 ∧ outputFiles (mainB false df rt) = [])
      ∧ (find_target_column df rt = none → mainB true df rt = .exit2 (colNames df))
      ∧ (∀ t, find_target_column df rt = some t →
            t ∉ colNames (basic_preprocess df t) →
            prefixRematch (colNames (basic_preprocess df t)) t = [] →
            mainB true df rt = .exit3) := by
  intro df rt
  refine ⟨⟨rfl, rfl⟩, ?_, ?_⟩
  · intro h
    simp [mainB, h]
  · intro t ht hlost hre
    simp [mainB, ht, hlost, hre]

/-- Claim C7 witness: The exit-code theorem applied at concrete frames: a
missing file, a frame with no price-like column, and a frame whose
resolved target ("target", a single-category text column) vanishes during
one-hot encoding with no prefix re-match. -/
theorem pipelineB_exit_codes_witness :
    mainB false sampleDfB none = .exit1
    ∧ mainB true [("mileage".toList, [.num (mkRat 1 1)])] none
        = .exit2 ["mileage".toList]
    ∧ mainB true [("target".toList, [.str "x".toList, .str "x".toList])] none = .exit3 :=
  ⟨(pipelineB_exit_codes sampleDfB none).1.1,
   (pipelineB_exit_codes [("mileage".toList, [.num (mkRat 1 1)])] none).2.1 (by decide),
   (pipelineB_exit_codes [("target".toList, [.str "x".toList, .str "x".toList])] none).2.2
     "target".toList (by decide) (by decide) (by decide)⟩

theorem dropnaTargetRows_eq_spec (df : Df) (t : Str) :
    dropnaTargetRows df t = specDropMissingTargetRows df t := by
  unfold dropnaTargetRows specDropMissingTargetRows
  refine List.map_congr_left ?_
  intro c _
  rw [List.zip_map_left, List.filterMap_map]
  refine congrArg (Prod.mk c.1) (List.filterMap_congr ?_)
  intro p _
  cases h : p.1.isNa <;> simp [h, Prod.map]

theorem dropIdentifierCols_eq_spec (df : Df) (t : Str) :
    dropIdentifierCols df t = specDropIdentifier df t := by
  unfold dropIdentifierCols specDropIdentifier
  refine List.filter_congr ?_
  intro c _
  cases h1 : decide (c.1 ≠ t) <;> cases h2 : isObjectCol c.2 <;>
    cases h3 : decide (lowerStr c.1 ∈ identifierAliases) <;> simp [h1, h2, h3]

/-- Claim C8: For every table and target, preprocessing drops the rows with
a missing target value, drops every text column whose lowercased name is
"car_name", "name" or "id", and one-hot encodes every remaining text
column omitting one reference category; in particular the scenario frame
(Car_Name, Year, Selling_Price, two-category Fuel_Type) yields exactly
Year, the retained target Selling_Price, and a single binary indicator
for Fuel_Type, with Car_Name gone. -/
theorem preprocess_contract :
    (∀ (df : Df) (t : Str), basic_preprocess df t = specPreprocess df t)
    ∧ basic_preprocess sampleDfB "Selling_Price".toList
      = [("Year".toList, [.num (mkRat 2014 1), .num (mkRat 2013 1), .num (mkRat 2017 1)]),
         ("Selling_Price".toList, [.num (mkRat 335 100), .num (mkRat 475 100), .num (mkRat 725 100)]),
         ("Fuel_Type_Petrol".toList,
          [.num (mkRat 1 1), .num (mkRat 0 1), .num (mkRat 1 1)])] := by
  constructor
  · intro df t
    unfold basic_preprocess specPreprocess
    rw [dropnaTargetRows_eq_spec, dropIdentifierCols_eq_spec]
  · decide

theorem pyRemoveAll_comm (a b : Char) (l : Str) :
    pyRemoveAll a (pyRemoveAll b l) = pyRemoveAll b (pyRemoveAll a l) := by
  unfold pyRemoveAll
  rw [List.filter_filter, List.filter_filter]
  refine List.filter_congr ?_
  intro c _
  cases h1 : decide (c ≠ a) <;> cases h2 : decide (c ≠ b) <;> simp [h1, h2]

theorem cleanCell_eq_spec (c : Cell) : cleanCell c = specCleanCell c := by
  unfold cleanCell specCleanCell toNumericCoerce
  rw [pyRemoveAll_comm]

theorem specCleanCell_not_str (c : Cell) : (specCleanCell c).isStr = false := by
  unfold specCleanCell
  cases parseDecimal (pyStrip (pyRemoveAll '%' (pyRemoveAll ',' (cellToString c)))) <;>
    simp [Cell.isStr]

/-- Claim C4: Rate cleaning returns a column of the same length in which
each cell is the claim's cleaned value — strip the literal "%" and ","
characters and the surrounding whitespace, then parse, with parse
failures becoming the missing marker — and no cell of the result is
text (the column is numeric); the function is total, so no exception
reaches the caller. -/
theorem rate_cleaning_cellwise :
    ∀ (s : List Cell),
      (clean_rate_series s).length = s.length
      ∧ ∀ (i : ℕ) (h : i < s.length),
          (clean_rate_series s)[i]? = some (specCleanCell s[i])
          ∧ (specCleanCell s[i]).isStr = false := by
  intro s
  refine ⟨by simp [clean_rate_series], ?_⟩
  intro i h
  refine ⟨?_, specCleanCell_not_str _⟩
  rw [clean_rate_series, List.getElem?_map, List.getElem?_eq_getElem h]
  simp [cleanCell_eq_spec]

/-- Claim C4 witness: The cell-wise cleaning theorem applied at a concrete
column and index. -/
theorem rate_cleaning_cellwise_witness :
    (clean_rate_series [Cell.str " 7.25% ".toList])[0]?
      = some (specCleanCell (Cell.str " 7.25% ".toList))
    ∧ (specCleanCell (Cell.str " 7.25% ".toList)).isStr = false :=
  (rate_cleaning_cellwise [Cell.str " 7.25% ".toList]).2 0 (by decide)

theorem zip_eraseIdx {α β : Type} (as : List α) :
    ∀ (bs : List β) (i : ℕ), (as.eraseIdx i).zip (bs.eraseIdx i) = (as.zip bs).eraseIdx i := by
  induction as with
  | nil => intro bs i; simp
  | cons a as ih =>
      intro bs i
      cases bs with
      | nil => simp [List.zip_nil_right]
      | cons b bs =>
          cases i with
          | zero => simp
          | succ i => simp [List.eraseIdx_cons_succ, ih]

theorem getCol_removeRow (df : Df) (i : ℕ) (n : Str) :
    getCol (removeRow df i) n = (getCol df n).eraseIdx i := by
  unfold getCol removeRow
  rw [List.find?_map]
  have hpred : ((fun c => decide (c.1 = n)) ∘ fun c : Str × List Cell => (c.1, c.2.eraseIdx i))
      = fun c : Str × List Cell => decide (c.1 = n) := rfl
  rw [hpred]
  cases df.find? (fun c : Str × List Cell => decide (c.1 = n)) with
  | some c => rfl
  | none => simp

theorem dfTriples_removeRow (df : Df) (rc : Str) (i : ℕ) :
    dfTriples (removeRow df i) rc = (dfTriples df rc).eraseIdx i := by
  unfold dfTriples
  rw [getCol_removeRow, getCol_removeRow, getCol_removeRow, zip_eraseIdx, zip_eraseIdx]

theorem filter_eraseIdx_of_false {α : Type} (p : α → Bool) :
    ∀ (l : List α) (i : ℕ) (hi : i < l.length), p l[i] = false →
      (l.eraseIdx i).filter p = l.filter p := by
  intro l
  induction l with
  | nil => intro i hi _; simp at hi
  | cons a tl ih =>
      intro i hi hp
      cases i with
      | zero =>
          simp only [List.getElem_cons_zero] at hp
          simp [List.eraseIdx_cons_zero, List.filter_cons, hp]
      | succ i =>
          have hi' : i < tl.length := by simpa using hi
          have hp' : p tl[i] = false := by simpa using hp
          cases hpa : p a <;>
            simp [List.eraseIdx_cons_succ, List.filter_cons, hpa, ih i hi' hp']

theorem map_filter_eq_filterMap {α β : Type} (p : α → Bool) (f : α → β) (l : List α) :
    (l.filter p).map f = l.filterMap (fun a => if p a then some (f a) else none) := by
  induction l with
  | nil => rfl
  | cons a tl ih => cases h : p a <;> simp [List.filter_cons, h, ih]

theorem monthly_eq_single_filter (df : Df) (rc : Str) (ym : Cell × Cell) :
    monthly_timeseries df rc ym =
      (if (((dfTriples df rc).filter (fun t => decide (t.1 = ym) && rowOk t)).map
            (fun t => cellQ t.2)).isEmpty then none
       else some (ratDivNat
         (ratSum (((dfTriples df rc).filter (fun t => decide (t.1 = ym) && rowOk t)).map
           (fun t => cellQ t.2)))
         (((dfTriples df rc).filter (fun t => decide (t.1 = ym) && rowOk t)).map
           (fun t => cellQ t.2)).length)) := by
  simp only [monthly_timeseries, List.filter_filter]

theorem monthly_eq_specMean (df : Df) (rc : Str) :
    ∀ ym, monthly_timeseries df rc ym = specMonthMean df rc ym := by
  intro ym
  rw [monthly_eq_single_filter]
  have hg : ((dfTriples df rc).filter (fun t => decide (t.1 = ym) && rowOk t)).map
      (fun t => cellQ t.2)
      = (dfTriples df rc).filterMap
          (fun t => if rowOk t && decide (t.1 = ym) then some (cellQ t.2) else none) := by
    rw [map_filter_eq_filterMap]
    refine List.filterMap_congr ?_
    intro t _
    cases h1 : rowOk t <;> cases h2 : decide (t.1 = ym) <;> simp [h1, h2]
  rw [hg]
  rfl

/-- Claim C1: Each entry of the monthly series is the arithmetic mean of
the cleaned rates of the qualifying rows (Year, Month and cleaned rate
all present) of that month; a row missing any of the three contributes to
no entry (removing it leaves the whole series unchanged); and a
qualifying row contributes to exactly the entry of its own month
(removing it can change no other month's entry, and its month's entry is
present). -/
theorem monthly_aggregation_contribution :
    ∀ (df : Df) (rc : Str),
      (∀ ym, monthly_timeseries df rc ym = specMonthMean df rc ym)
      ∧ ∀ (i : ℕ) (hi : i < (dfTriples df rc).length),
          (rowOk (dfTriples df rc)[i] = false →
            monthly_timeseries (removeRow df i) rc = monthly_timeseries df rc)
          ∧ (rowOk (dfTriples df rc)[i] = true →
              (∀ ym, ym ≠ ((dfTriples df rc)[i]).1 →
                monthly_timeseries (removeRow df i) rc ym = monthly_timeseries df rc ym)
              ∧ (monthly_timeseries df rc ((dfTriples df rc)[i]).1).isSome = true) := by
  intro df rc
  refine ⟨monthly_eq_specMean df rc, ?_⟩
  intro i hi
  constructor
  · intro hbad
    funext ym
    simp only [monthly_timeseries]
    rw [dfTriples_removeRow, filter_eraseIdx_of_false rowOk _ i hi hbad]
  · intro hok
    constructor
    · intro ym hym
      rw [monthly_eq_single_filter, monthly_eq_single_filter, dfTriples_removeRow,
        filter_eraseIdx_of_false (fun t => decide (t.1 = ym) && rowOk t) _ i hi
          (by simp [hok]; exact fun h => absurd h.symm hym)]
    · rw [monthly_eq_single_filter]
      have hmem : (dfTriples df rc)[i] ∈ (dfTriples df rc).filter
          (fun t => decide (t.1 = ((dfTriples df rc)[i]).1) && rowOk t) :=
        List.mem_filter.mpr ⟨List.getElem_mem hi, by simp [hok]⟩
      have hne : (((dfTriples df rc).filter
          (fun t => decide (t.1 = ((dfTriples df rc)[i]).1) && rowOk t)).map
            (fun t => cellQ t.2)) ≠ [] := by
        intro hempty
        rw [List.map_eq_nil_iff] at hempty
        rw [hempty] at hmem
        simp at hmem
      cases hX : (((dfTriples df rc).filter
          (fun t => decide (t.1 = ((dfTriples df rc)[i]).1) && rowOk t)).map
            (fun t => cellQ t.2)).isEmpty with
      | true => exact absurd (List.isEmpty_iff.mp hX) hne
      | false => simp [hX]

/-- Claim C1 witness: The contribution theorem applied at a concrete frame:
removing the non-qualifying fourth row (missing Year) leaves the series
unchanged, and the January 2020 entry is the mean of its two qualifying
rows. -/
theorem monthly_aggregation_contribution_witness :
    monthly_timeseries (removeRow sampleDfC 3) "r_clean".toList
      = monthly_timeseries sampleDfC "r_clean".toList
    ∧ monthly_timeseries sampleDfC "r_clean".toList (.num (mkRat 2020 1), .num (mkRat 1 1))
      = specMonthMean sampleDfC "r_clean".toList (.num (mkRat 2020 1), .num (mkRat 1 1)) :=
  ⟨((monthly_aggregation_contribution sampleDfC "r_clean".toList).2 3 (by decide)).1 (by decide),
   (monthly_aggregation_contribution sampleDfC "r_clean".toList).1 _⟩

/-! ### Round-trip of printing and parsing decimal literals

These lemmas establish that `parseDecimal (ratToStr q) = some q` for
every rational in the image of `parseDecimal` — the heart of the
idempotence of rate cleaning. -/

theorem charsVal_from (l : Str) : ∀ (a : ℕ),
    l.foldl (fun a c => 10 * a + digitVal c) a = a * 10 ^ l.length + charsVal l := by
  induction l with
  | nil => intro a; simp [charsVal]
  | cons c tl ih =>
      intro a
      have hcons : charsVal (c :: tl) = digitVal c * 10 ^ tl.length + charsVal tl := by
        simp only [charsVal, List.foldl_cons]
        simpa using ih (10 * 0 + digitVal c)
      simp only [List.foldl_cons, List.length_cons]
      rw [ih (10 * a + digitVal c), hcons]
      ring

theorem charsVal_cons (c : Char) (l : Str) :
    charsVal (c :: l) = digitVal c * 10 ^ l.length + charsVal l := by
  simp only [charsVal, List.foldl_cons]
  simpa using charsVal_from l (10 * 0 + digitVal c)

theorem charsVal_append (l r : Str) :
    charsVal (l ++ r) = charsVal l * 10 ^ r.length + charsVal r := by
  simp only [charsVal, List.foldl_append]
  exact charsVal_from r (l.foldl (fun a c => 10 * a + digitVal c) 0)

theorem digitVal_digitChar {d : ℕ} (h : d < 10) : digitVal (Nat.digitChar d) = d := by
  interval_cases d <;> decide

theorem isDigit_digitChar {d : ℕ} (h : d < 10) : (Nat.digitChar d).isDigit = true := by
  interval_cases d <;> decide

theorem digitsRev_val : ∀ (fuel n : ℕ), n ≤ fuel → charsVal ((digitsRev fuel n).reverse) = n := by
  intro fuel
  induction fuel with
  | zero =>
      intro n hn
      interval_cases n
      rfl
  | succ fuel ih =>
      intro n hn
      match n with
      | 0 => rfl
      | m + 1 =>
          have hdiv : (m + 1) / 10 ≤ fuel := by
            have := Nat.div_lt_self (Nat.succ_pos m) (by norm_num : 1 < 10)
            omega
          simp only [digitsRev, List.reverse_cons]
          rw [charsVal_append, ih ((m + 1) / 10) hdiv]
          have hlt : (m + 1) % 10 < 10 := Nat.mod_lt _ (by norm_num)
          rw [charsVal_cons]
          simp [charsVal, digitVal_digitChar hlt]
          omega

theorem digitsRev_digits : ∀ (fuel n : ℕ), ∀ c ∈ digitsRev fuel n, c.isDigit = true := by
  intro fuel
  induction fuel with
  | zero => intro n c hc; simp [digitsRev] at hc
  | succ fuel ih =>
      intro n c hc
      match n with
      | 0 => simp [digitsRev] at hc
      | m + 1 =>
          simp only [digitsRev, List.mem_cons] at hc
          rcases hc with rfl | hc
          · exact isDigit_digitChar (Nat.mod_lt _ (by norm_num))
          · exact ih _ c hc

theorem digitsRev_len_le : ∀ (fuel n k : ℕ), n < 10 ^ k → (digitsRev fuel n).length ≤ k := by
  intro fuel
  induction fuel with
  | zero => intro n k _; simp [digitsRev]
  | succ fuel ih =>
      intro n k hk
      match n with
      | 0 => simp [digitsRev]
      | m + 1 =>
          match k with
          | 0 => simp at hk
          | k + 1 =>
              simp only [digitsRev, List.length_cons]
              have hdiv : (m + 1) / 10 < 10 ^ k := by
                rw [Nat.div_lt_iff_lt_mul (by norm_num : 0 < 10)]
                calc m + 1 < 10 ^ (k + 1) := hk
                _ = 10 ^ k * 10 := by ring
              exact Nat.succ_le_succ (ih _ k hdiv)

theorem natToChars_val (n : ℕ) : charsVal (natToChars n) = n := by
  unfold natToChars
  by_cases h : n = 0
  · subst h; decide
  · simp only [h, if_false]
    exact digitsRev_val n n le_rfl

theorem natToChars_digits (n : ℕ) : ∀ c ∈ natToChars n, c.isDigit = true := by
  unfold natToChars
  by_cases h : n = 0
  · subst h; intro c hc; simp at hc; subst hc; decide
  · simp only [h, if_false]
    intro c hc
    exact digitsRev_digits n n c (by simpa using hc)

theorem natToChars_ne_nil (n : ℕ) : natToChars n ≠ [] := by
  unfold natToChars
  by_cases h : n = 0
  · simp [h]
  · simp only [h, if_false]
    obtain ⟨m, rfl⟩ : ∃ m, n = m + 1 := ⟨n - 1, by omega⟩
    simp [digitsRev]

theorem natToChars_len_le (n k : ℕ) (hk : 1 ≤ k) (h : n < 10 ^ k) :
    (natToChars n).length ≤ k := by
  unfold natToChars
  by_cases h0 : n = 0
  · simp [h0]; omega
  · simp only [h0, if_false, List.length_reverse]
    exact digitsRev_len_le n n k h

theorem charsVal_replicate_zero (m : ℕ) : charsVal (List.replicate m '0') = 0 := by
  induction m with
  | zero => rfl
  | succ m ih =>
      rw [List.replicate_succ, charsVal_cons, ih]
      simp [digitVal]

theorem padZeros_val (k : ℕ) (l : Str) : charsVal (padZeros k l) = charsVal l := by
  unfold padZeros
  rw [charsVal_append, charsVal_replicate_zero]
  ring

theorem padZeros_length (k : ℕ) (l : Str) (h : l.length ≤ k) : (padZeros k l).length = k := by
  unfold padZeros
  simp [List.length_replicate]
  omega

theorem padZeros_digits (k : ℕ) (l : Str) (h : ∀ c ∈ l, c.isDigit = true) :
    ∀ c ∈ padZeros k l, c.isDigit = true := by
  intro c hc
  unfold padZeros at hc
  rcases List.mem_append.mp hc with hrep | hl
  · have := List.eq_of_mem_replicate hrep
    subst this
    decide
  · exact h c hl

theorem takeWhile_all {p : Char → Bool} : ∀ (l : Str), (∀ c ∈ l, p c = true) → l.takeWhile p = l := by
  intro l
  induction l with
  | nil => intro _; rfl
  | cons a tl ih =>
      intro h
      have ha : p a = true := h a (by simp)
      simp only [List.takeWhile_cons, ha, if_true]
      rw [ih (fun c hc => h c (by simp [hc]))]

theorem dropWhile_all {p : Char → Bool} : ∀ (l : Str), (∀ c ∈ l, p c = true) → l.dropWhile p = [] := by
  intro l
  induction l with
  | nil => intro _; rfl
  | cons a tl ih =>
      intro h
      have ha : p a = true := h a (by simp)
      simp only [List.dropWhile_cons, ha, if_true]
      exact ih (fun c hc => h c (by simp [hc]))

theorem takeWhile_dropWhile_append {p : Char → Bool} :
    ∀ (l : Str) (x : Char) (r : Str), (∀ c ∈ l, p c = true) → p x = false →
      (l ++ x :: r).takeWhile p = l ∧ (l ++ x :: r).dropWhile p = x :: r := by
  intro l
  induction l with
  | nil =>
      intro x r _ hx
      simp [List.takeWhile_cons, List.dropWhile_cons, hx]
  | cons a tl ih =>
      intro x r h hx
      have ha : p a = true := h a (by simp)
      have := ih x r (fun c hc => h c (by simp [hc])) hx
      simp [List.takeWhile_cons, List.dropWhile_cons, ha, this.1, this.2]

theorem dropWhile_head_false {p : Char → Bool} (l : Str) (h : ∀ c ∈ l, p c = false) :
    l.dropWhile p = l := by
  cases l with
  | nil => rfl
  | cons a tl => simp [List.dropWhile_cons, h a (by simp)]

theorem pyStrip_id (l : Str) (h : ∀ c ∈ l, c.isWhitespace = false) : pyStrip l = l := by
  unfold pyStrip
  rw [dropWhile_head_false l h,
    dropWhile_head_false l.reverse (fun c hc => h c (List.mem_reverse.mp hc)),
    List.reverse_reverse]

theorem pyRemoveAll_id (ch : Char) (l : Str) (h : ∀ c ∈ l, c ≠ ch) : pyRemoveAll ch l = l :=
  List.filter_eq_self.mpr (fun c hc => by simp [h c hc])

theorem parseUnsigned_digits (l : Str) (hne : l ≠ []) (hd : ∀ c ∈ l, c.isDigit = true) :
    parseUnsigned l = some (charsVal l, 0) := by
  have hie : l.isEmpty = false := by
    cases l with
    | nil => exact absurd rfl hne
    | cons a tl => rfl
  simp only [parseUnsigned, takeWhile_all l hd, dropWhile_all l hd, hie]
  rfl

theorem parseUnsigned_point (ip fr : Str) (hne : ip ≠ []) (hip : ∀ c ∈ ip, c.isDigit = true)
    (hfr : ∀ c ∈ fr, c.isDigit = true) :
    parseUnsigned (ip ++ '.' :: fr) = some (charsVal (ip ++ fr), fr.length) := by
  obtain ⟨htake, hdrop⟩ := takeWhile_dropWhile_append ip '.' fr hip (by decide)
  have hall : fr.all Char.isDigit = true := List.all_eq_true.mpr hfr
  have hie : ip.isEmpty = false := by
    cases ip with
    | nil => exact absurd rfl hne
    | cons a tl => rfl
  simp only [parseUnsigned, htake, hdrop, hall, hie]
  simp

theorem parseDecimal_of_digit_head (l : Str) (c : Char) (hhead : l.head? = some c)
    (hc : c.isDigit = true) :
    parseDecimal l = (parseUnsigned l).map (fun p => mkRat (p.1 : ℤ) (10 ^ p.2)) := by
  have h1 : c ≠ '-' := by rintro rfl; exact absurd hc (by decide)
  have h2 : c ≠ '+' := by rintro rfl; exact absurd hc (by decide)
  simp [parseDecimal, hhead, h1, h2]

theorem parseDecimal_neg_cons (u : Str) :
    parseDecimal ('-' :: u) = (parseUnsigned u).map (fun p => mkRat (-(p.1 : ℤ)) (10 ^ p.2)) := by
  simp [parseDecimal]

theorem dvd_ten_pow_self : ∀ (d : ℕ), (∃ j, d ∣ 10 ^ j) → d ∣ 10 ^ d := by
  intro d
  induction d using Nat.strong_induction_on with
  | _ d ih =>
      rintro ⟨j, hj⟩
      rcases eq_or_ne d 1 with rfl | hd1
      · exact one_dvd _
      rcases eq_or_ne d 0 with rfl | hd0
      · exact absurd (Nat.eq_zero_of_zero_dvd hj) (pow_ne_zero j (by norm_num))
      obtain ⟨p, hp, hpd⟩ := Nat.exists_prime_and_dvd hd1
      obtain ⟨e, rfl⟩ := hpd
      have he0 : e ≠ 0 := by rintro rfl; simp at hd0
      have he1 : 1 ≤ e := Nat.pos_of_ne_zero he0
      have helt : e < p * e := by
        have hp2 : 2 ≤ p := hp.two_le
        calc e = 1 * e := (one_mul e).symm
        _ < p * e := by
            exact Nat.mul_lt_mul_of_lt_of_le (by omega) le_rfl he1
      have hedvd : e ∣ 10 ^ j := dvd_trans (dvd_mul_left e p) hj
      have ihe : e ∣ 10 ^ e := ih e helt ⟨j, hedvd⟩
      have hp10 : p ∣ 10 := hp.dvd_of_dvd_pow (dvd_trans (dvd_mul_right p e) hj)
      have hmul : p * e ∣ 10 ^ (e + 1) := by
        have : p * e ∣ 10 * 10 ^ e := mul_dvd_mul hp10 ihe
        simpa [pow_succ, mul_comm] using this
      refine dvd_trans hmul (pow_dvd_pow 10 ?_)
      have hp2 : 2 ≤ p := hp.two_le
      calc e + 1 ≤ e + e := by omega
      _ = 2 * e := by ring
      _ ≤ p * e := Nat.mul_le_mul_right e hp2

theorem decExp_dvd {d k : ℕ} (h : decExp d = some k) : d ∣ 10 ^ k := by
  have := List.find?_some h
  simpa using this

theorem decExp_isSome {d : ℕ} (hd : ∃ j, d ∣ 10 ^ j) : ∃ k, decExp d = some k := by
  have hdd : d ∣ 10 ^ d := dvd_ten_pow_self d hd
  cases hfind : decExp d with
  | some k => exact ⟨k, rfl⟩
  | none =>
      exfalso
      have := List.find?_eq_none.mp hfind d (by simp [List.mem_range])
      simp [hdd] at this

theorem isDigit_not_ws {c : Char} (h : c.isDigit = true) : c.isWhitespace = false := by
  by_contra hw
  simp only [Bool.not_eq_false] at hw
  simp only [Char.isWhitespace] at hw
  rcases Bool.or_eq_true_iff.mp hw with h1 | h2
  · rcases Bool.or_eq_true_iff.mp h1 with h3 | h4
    · rcases Bool.or_eq_true_iff.mp h3 with h5 | h6
      · rw [show c = ' ' from by simpa using h5] at h; exact absurd h (by decide)
      · rw [show c = '\t' from by simpa using h6] at h; exact absurd h (by decide)
    · rw [show c = '\r' from by simpa using h4] at h; exact absurd h (by decide)
  · rw [show c = '\n' from by simpa using h2] at h; exact absurd h (by decide)

theorem ratChar_not_pct {c : Char} (h : RatChar c) : c ≠ '%' := by
  rcases h with h | rfl | rfl
  · rintro rfl; exact absurd h (by decide)
  · decide
  · decide

theorem ratChar_not_comma {c : Char} (h : RatChar c) : c ≠ ',' := by
  rcases h with h | rfl | rfl
  · rintro rfl; exact absurd h (by decide)
  · decide
  · decide

theorem ratChar_not_ws {c : Char} (h : RatChar c) : c.isWhitespace = false := by
  rcases h with h | rfl | rfl
  · exact isDigit_not_ws h
  · decide
  · decide

theorem ratToStr_chars (q : ℚ) (k : ℕ) (hk : decExp q.den = some k) :
    ∀ c ∈ ratToStr q, RatChar c := by
  intro c hc
  simp only [ratToStr, hk] at hc
  have hsign : ∀ x, x ∈ (if q.num < 0 then ['-'] else ([] : Str)) → RatChar x := by
    intro x hx
    by_cases hneg : q.num < 0
    · simp [hneg] at hx; subst hx; right; left; rfl
    · simp [hneg] at hx
  by_cases hk0 : k = 0
  · rw [if_pos hk0] at hc
    rcases List.mem_append.mp hc with hs | hn
    · exact hsign c hs
    · exact Or.inl (natToChars_digits _ c hn)
  · rw [if_neg hk0] at hc
    rcases List.mem_append.mp hc with hl | hr
    · rcases List.mem_append.mp hl with hs | hn
      · exact hsign c hs
      · exact Or.inl (natToChars_digits _ c hn)
    · rcases List.mem_cons.mp hr with rfl | hfr
      · right; right; rfl
      · exact Or.inl (padZeros_digits _ _ (natToChars_digits _) c hfr)

theorem mkRat_reconstruct (q : ℚ) (k : ℕ) (hdvd : q.den ∣ 10 ^ k) :
    mkRat (q.num * ((10 ^ k / q.den : ℕ) : ℤ)) (10 ^ k) = q := by
  have hden0 : q.den ≠ 0 := q.den_nz
  have ht : (10 ^ k / q.den) * q.den = 10 ^ k := Nat.div_mul_cancel hdvd
  have ht0 : (10 ^ k / q.den : ℕ) ≠ 0 := by
    intro h0
    rw [h0, zero_mul] at ht
    exact absurd ht.symm (pow_ne_zero k (by norm_num))
  have htq : ((10 ^ k : ℕ) : ℚ) = (q.den : ℚ) * ((10 ^ k / q.den : ℕ) : ℚ) := by
    rw [mul_comm]
    exact_mod_cast ht.symm
  have htq0 : ((10 ^ k / q.den : ℕ) : ℚ) ≠ 0 := by exact_mod_cast ht0
  rw [Rat.mkRat_eq_div, Int.cast_mul, Int.cast_natCast, htq,
    mul_div_mul_right _ _ htq0]
  exact Rat.num_div_den q

theorem parse_den_dvd {l : Str} {q : ℚ} (h : parseDecimal l = some q) :
    ∃ j, q.den ∣ 10 ^ j := by
  have hden : ∀ (z : ℤ) (j : ℕ), q = mkRat z (10 ^ j) → q.den ∣ 10 ^ j := by
    intro z j hq
    have h1 : ((mkRat z (10 ^ j)).den : ℤ) ∣ ((10 ^ j : ℕ) : ℤ) := by
      rw [Rat.mkRat_eq_divInt]
      exact Rat.den_dvd z ((10 ^ j : ℕ) : ℤ)
    rw [← hq] at h1
    exact_mod_cast h1
  unfold parseDecimal at h
  split at h
  · obtain ⟨p, _, hfp⟩ := Option.map_eq_some'.mp h
    exact ⟨p.2, hden _ p.2 hfp.symm⟩
  · split at h
    · obtain ⟨p, _, hfp⟩ := Option.map_eq_some'.mp h
      exact ⟨p.2, hden _ p.2 hfp.symm⟩
    · obtain ⟨p, _, hfp⟩ := Option.map_eq_some'.mp h
      exact ⟨p.2, hden _ p.2 hfp.symm⟩

theorem ratToStr_roundtrip (q : ℚ) (k : ℕ) (hk : decExp q.den = some k) :
    parseDecimal (ratToStr q) = some q := by
  have hdvd : q.den ∣ 10 ^ k := decExp_dvd hk
  have hval_pos : 0 ≤ q.num →
      mkRat ((q.num.natAbs * (10 ^ k / q.den) : ℕ) : ℤ) (10 ^ k) = q := by
    intro hpos
    have hcast : ((q.num.natAbs * (10 ^ k / q.den) : ℕ) : ℤ)
        = q.num * ((10 ^ k / q.den : ℕ) : ℤ) := by
      rw [Nat.cast_mul, Int.natAbs_of_nonneg hpos]
    rw [hcast]
    exact mkRat_reconstruct q k hdvd
  have hval_neg : q.num < 0 →
      mkRat (-((q.num.natAbs * (10 ^ k / q.den) : ℕ) : ℤ)) (10 ^ k) = q := by
    intro hneg
    have hNA : ((q.num.natAbs : ℕ) : ℤ) = -q.num := by omega
    have hcast : (-((q.num.natAbs * (10 ^ k / q.den) : ℕ) : ℤ))
        = q.num * ((10 ^ k / q.den : ℕ) : ℤ) := by
      rw [Nat.cast_mul, hNA]
      ring
    rw [hcast]
    exact mkRat_reconstruct q k hdvd
  simp only [ratToStr, hk]
  by_cases hk0 : k = 0
  · subst hk0
    rw [if_pos rfl]
    by_cases hneg : q.num < 0
    · rw [if_pos hneg, List.singleton_append, parseDecimal_neg_cons,
        parseUnsigned_digits _ (natToChars_ne_nil _) (natToChars_digits _)]
      simp only [Option.map_some']
      rw [natToChars_val]
      exact congrArg some (hval_neg hneg)
    · rw [if_neg hneg, List.nil_append]
      obtain ⟨c, rest, hcr⟩ : ∃ c rest,
          natToChars (q.num.natAbs * (10 ^ 0 / q.den)) = c :: rest := by
        cases hl : natToChars (q.num.natAbs * (10 ^ 0 / q.den)) with
        | nil => exact absurd hl (natToChars_ne_nil _)
        | cons c rest => exact ⟨c, rest, rfl⟩
      have hhead : (natToChars (q.num.natAbs * (10 ^ 0 / q.den))).head? = some c := by
        rw [hcr]; rfl
      have hcd : c.isDigit = true := natToChars_digits _ c (by rw [hcr]; simp)
      rw [parseDecimal_of_digit_head _ c hhead hcd,
        parseUnsigned_digits _ (natToChars_ne_nil _) (natToChars_digits _)]
      simp only [Option.map_some']
      rw [natToChars_val]
      exact congrArg some (hval_pos (le_of_not_lt hneg))
  · rw [if_neg hk0]
    have hmod : (q.num.natAbs * (10 ^ k / q.den)) % 10 ^ k < 10 ^ k :=
      Nat.mod_lt _ (pow_pos (by norm_num) k)
    have hfrdig := padZeros_digits k
      (natToChars ((q.num.natAbs * (10 ^ k / q.den)) % 10 ^ k)) (natToChars_digits _)
    have hfrlen : (padZeros k (natToChars ((q.num.natAbs * (10 ^ k / q.den)) % 10 ^ k))).length = k :=
      padZeros_length k _ (natToChars_len_le _ k (by omega) hmod)
    have hu : parseUnsigned (natToChars ((q.num.natAbs * (10 ^ k / q.den)) / 10 ^ k)
          ++ '.' :: padZeros k (natToChars ((q.num.natAbs * (10 ^ k / q.den)) % 10 ^ k)))
        = some ((q.num.natAbs * (10 ^ k / q.den)), k) := by
      rw [parseUnsigned_point _ _ (natToChars_ne_nil _) (natToChars_digits _) hfrdig,
        charsVal_append, natToChars_val, padZeros_val, natToChars_val, hfrlen,
        Nat.div_add_mod']
    by_cases hneg : q.num < 0
    · rw [if_pos hneg, List.append_assoc, List.singleton_append, parseDecimal_neg_cons, hu]
      simp only [Option.map_some']
      exact congrArg some (hval_neg hneg)
    · rw [if_neg hneg, List.nil_append]
      obtain ⟨c, rest, hcr⟩ : ∃ c rest,
          natToChars ((q.num.natAbs * (10 ^ k / q.den)) / 10 ^ k) = c :: rest := by
        cases hl : natToChars ((q.num.natAbs * (10 ^ k / q.den)) / 10 ^ k) with
        | nil => exact absurd hl (natToChars_ne_nil _)
        | cons c rest => exact ⟨c, rest, rfl⟩
      have hhead : (natToChars ((q.num.natAbs * (10 ^ k / q.den)) / 10 ^ k)
          ++ '.' :: padZeros k (natToChars ((q.num.natAbs * (10 ^ k / q.den)) % 10 ^ k))).head?
            = some c := by
        rw [hcr]; rfl
      have hcd : c.isDigit = true := natToChars_digits _ c (by rw [hcr]; simp)
      rw [parseDecimal_of_digit_head _ c hhead hcd, hu]
      simp only [Option.map_some']
      exact congrArg some (hval_pos (le_of_not_lt hneg))

theorem cleanCell_idem (c : Cell) : cleanCell (cleanCell c) = cleanCell c := by
  cases hp : parseDecimal (pyStrip (pyRemoveAll ',' (pyRemoveAll '%' (cellToString c)))) with
  | none =>
      have h1 : cleanCell c = .na := by simp [cleanCell, toNumericCoerce, hp]
      rw [h1]
      decide
  | some q =>
      have h1 : cleanCell c = .num q := by simp [cleanCell, toNumericCoerce, hp]
      rw [h1]
      obtain ⟨k, hk⟩ := decExp_isSome (parse_den_dvd hp)
      have hchars := ratToStr_chars q k hk
      have hns : cellToString (Cell.num q) = ratToStr q := rfl
      unfold cleanCell
      rw [hns,
        pyRemoveAll_id '%' _ (fun x hx => ratChar_not_pct (hchars x hx)),
        pyRemoveAll_id ',' _ (fun x hx => ratChar_not_comma (hchars x hx)),
        pyStrip_id _ (fun x hx => ratChar_not_ws (hchars x hx))]
      unfold toNumericCoerce
      rw [ratToStr_roundtrip q k hk]

/-- Claim C5: Rate cleaning is idempotent: applying `clean_rate_series`
twice to any column yields the same result as applying it once — in
particular, cleaning an already-clean numeric column (the output of a
previous cleaning) reproduces the same numeric values. -/
theorem rate_cleaning_idempotent :
    ∀ (s : List Cell), clean_rate_series (clean_rate_series s) = clean_rate_series s := by
  intro s
  unfold clean_rate_series
  rw [List.map_map]
  exact List.map_congr_left (fun c _ => cleanCell_idem c)
